import Mathlib

/-!
Verification of the pattern-matching core, configuration parser and result
aggregation of the detect-changed-files tool.

The Rust sources are shallowly embedded:
  - characters stay `Char` (the code works on `Vec<char>`, so components are
    `List Char`);
  - the memo table `HashMap<usize, bool>` becomes an association list
    `List (Nat × Bool)` with first-match lookup, which has the same
    lookup/insert observable behaviour for the keys the program uses;
  - the recursion of `match_recursive_memo` is not structural (the pattern
    index increases at every nested call), so the embedding carries a fuel
    argument.  Every nested call decreases the fuel by one while increasing
    the pattern index by one, so fuel `pattern.length + 1` is never exhausted
    and the fuel-zero branch is dead code; `match_pattern_component` passes
    exactly that fuel, mirroring the unbounded recursion of the source.
-/

/-- Association-list model of the `HashMap<usize, bool>` memo table. -/
abbrev Memo := List (Nat × Bool)

/-- The `for i in 0..=(text.len() - t_idx)` loop in the star branch of
`match_recursive_memo` (matching.rs lines 190-199): it tries consuming
`i, i+1, ...` characters, short-circuiting on the first success and
threading the memo table through.  `steps` counts the remaining loop
iterations; the caller passes `text.length - tIdx + 1`, the number of
iterations of the inclusive Rust range. -/
def starLoopAux (next : Nat → Memo → Bool × Memo) (tIdx : Nat) :
    Nat → Nat → Memo → Bool × Memo
  | _, 0, memo => (false, memo)
  | i, steps + 1, memo =>
    let res := next (tIdx + i) memo
    if res.1 then (true, res.2)
    else starLoopAux next tIdx (i + 1) steps res.2

/-- The trailing `memo.insert(key, match_result); match_result` of
`match_recursive_memo` (matching.rs lines 215-216): record the result of
the wildcard branch under the composite key and return it. -/
def memoInsertResult (key : Nat) (res : Bool × Memo) : Bool × Memo :=
  (res.1, (key, res.1) :: res.2)

/-- Embedding of `match_recursive_memo` (matching.rs lines 160-217).
The first argument is fuel; all recursive calls of the source increase
`pIdx` by one, and here they decrease the fuel by one, so with fuel
`pattern.length + 1` the fuel-zero branch is unreachable.  The memo key is
the composite integer `p_idx * 10000 + t_idx` of the source. -/
def match_recursive_memo : Nat → List Char → List Char → Nat → Nat → Memo → Bool × Memo
  | 0, _, _, _, _, memo => (false, memo)
  | fuel + 1, pattern, text, pIdx, tIdx, memo =>
    let key := pIdx * 10000 + tIdx
    match List.lookup key memo with
    | some r => (r, memo)
    | none =>
      if pIdx = pattern.length then
        let r := decide (tIdx = text.length)
        (r, (key, r) :: memo)
      else if tIdx = text.length then
        let r := (pattern.drop pIdx).all (fun c => c == '*')
        (r, (key, r) :: memo)
      else
        let pc := pattern.getD pIdx ' '
        memoInsertResult key
          (if pc = '*' then
            starLoopAux (fun t m => match_recursive_memo fuel pattern text (pIdx + 1) t m)
              tIdx 0 (text.length - tIdx + 1) memo
          else if pc = '?' then
            match_recursive_memo fuel pattern text (pIdx + 1) (tIdx + 1) memo
          else if text.getD tIdx ' ' = pc then
            match_recursive_memo fuel pattern text (pIdx + 1) (tIdx + 1) memo
          else
            (false, memo))

/-- Embedding of `match_pattern_component` (matching.rs lines 155-158):
start the memoized recursion at indices (0, 0) with an empty memo table. -/
def match_pattern_component (pattern text : List Char) : Bool :=
  (match_recursive_memo (pattern.length + 1) pattern text 0 0 []).1

/-- Modelled from the spec: the naive unmemoized backtracking matcher of
section 4.3 used as the differential-testing reference (the repository has
no such function under src; the spec describes it as "an unmemoized
reference implementation").  Same recursion as `match_recursive_memo`, with
the memo table removed.  Fuel as above: `pattern.length + 1` never runs out. -/
def matchNaive : Nat → List Char → List Char → Nat → Nat → Bool
  | 0, _, _, _, _ => false
  | fuel + 1, pattern, text, pIdx, tIdx =>
    if pIdx = pattern.length then
      decide (tIdx = text.length)
    else if tIdx = text.length then
      (pattern.drop pIdx).all (fun c => c == '*')
    else
      let pc := pattern.getD pIdx ' '
      if pc = '*' then
        (List.range (text.length - tIdx + 1)).any
          (fun i => matchNaive fuel pattern text (pIdx + 1) (tIdx + i))
      else if pc = '?' then
        matchNaive fuel pattern text (pIdx + 1) (tIdx + 1)
      else
        text.getD tIdx ' ' == pc && matchNaive fuel pattern text (pIdx + 1) (tIdx + 1)

/-- Modelled from the spec: the character-level wildcard semantics of
section 4.3 stated structurally — a star matches a possibly-empty run of
characters, a question mark matches exactly one character, any other
character matches itself, and an exhausted pattern matches exactly the
exhausted text. -/
def globMatchSpec : List Char → List Char → Bool
  | [], t => t.isEmpty
  | '*' :: p, t =>
    globMatchSpec p t ||
      (match t with
       | [] => false
       | _ :: t' => globMatchSpec ('*' :: p) t')
  | '?' :: p, t =>
    match t with
    | [] => false
    | _ :: t' => globMatchSpec p t'
  | c :: p, t =>
    match t with
    | [] => false
    | c' :: t' => c == c' && globMatchSpec p t'
  termination_by p t => (p.length, t.length)

/-- A path component: one slash-delimited segment, kept as the character
vector of the source `PathComponent { str: Vec<char> }`. -/
abbrev PathComponent := List Char

/-- Embedding of `PathComponent::is_double_star` (matching.rs lines 23-25):
the component is exactly the two characters `**`. -/
def PathComponent.is_double_star (c : PathComponent) : Bool :=
  decide (c = ['*', '*'])

/-- Left-to-right scan of `split_path_components` (matching.rs lines
132-153), with the current run of non-separator characters accumulated in
reverse in `cur`: at a separator a nonempty run is emitted and the run
restarts; at the end a nonempty final run is emitted. -/
def splitGo : List Char → List Char → List PathComponent
  | [], cur => if cur = [] then [] else [cur.reverse]
  | c :: rest, cur =>
    if c = '/' then
      if cur = [] then splitGo rest []
      else cur.reverse :: splitGo rest []
    else splitGo rest (c :: cur)

/-- Embedding of `split_path_components` (matching.rs lines 132-153). -/
def split_path_components (path : List Char) : List PathComponent :=
  splitGo path []

/-- Embedding of the `MatchPath` struct (matching.rs lines 32-37). -/
structure MatchPath where
  components : List PathComponent
  is_absolute : Bool
  is_directory : Bool
  deriving DecidableEq, Repr

/-- Embedding of `MatchPath::new` (matching.rs lines 40-58): the empty
string gives an empty path with both flags false; otherwise the flags come
from the first and last character and the components from the splitter. -/
def MatchPath.new (path : List Char) : MatchPath :=
  if path = [] then ⟨[], false, false⟩
  else
    { components := split_path_components path
      is_absolute := decide (path.head? = some '/')
      is_directory := decide (path.getLast? = some '/') }

/-- Embedding of `MatchPath::from_str` (matching.rs lines 60-63). -/
def MatchPath.from_str (path : String) : MatchPath :=
  MatchPath.new path.data

/-- The component walk of `MatchPath::is_match` (matching.rs lines 74-127):
the `while` loop over both component sequences together with the post-loop
checks.  `dstar` is the `is_double_star` flag of the source; the loop
advances the text index on every iteration, so the recursion is structural
on the text components. -/
def is_match_loop (is_directory : Bool) :
    List PathComponent → List PathComponent → Bool → Bool
  | pComp :: pRest, tComp :: tRest, dstar =>
    if pComp.is_double_star then
      if pRest = [] then true
      else is_match_loop is_directory pRest tRest true
    else if match_pattern_component pComp tComp then
      is_match_loop is_directory pRest tRest false
    else if dstar then
      is_match_loop is_directory (pComp :: pRest) tRest dstar
    else false
  | pRest, tRest, _ =>
    if is_directory && pRest = [] then true
    else decide (pRest = []) && decide (tRest = [])

/-- Embedding of `MatchPath::is_match` (matching.rs lines 67-128): an
empty pattern matches only an empty text; otherwise the walk starts with
the double-star flag set exactly when the pattern is not absolute. -/
def MatchPath.is_match (self text : MatchPath) : Bool :=
  if self.components = [] then decide (text.components = [])
  else is_match_loop self.is_directory self.components text.components (!self.is_absolute)

/-- Embedding of `ParseError` (config.rs lines 4-8). -/
structure ParseError where
  line : Nat
  message : List Char
  deriving DecidableEq, Repr

/-- Rust `str::trim` on a character list: drop whitespace from both ends
(`Char.isWhitespace` stands in for the Rust whitespace predicate; they
agree on the ASCII whitespace of configuration files). -/
def trimChars (l : List Char) : List Char :=
  ((l.dropWhile Char.isWhitespace).reverse.dropWhile Char.isWhitespace).reverse

/-- A trimmed line the parser skips: empty, or starting with `#` or `;`
(config.rs line 29). -/
def lineIsSkip (t : List Char) : Bool :=
  t.isEmpty || decide (t.head? = some '#') || decide (t.head? = some ';')

/-- A trimmed line shaped like a section header: starts with `[` and ends
with `]` (config.rs line 34). -/
def isHeaderLine (t : List Char) : Bool :=
  decide (t.head? = some '[') && decide (t.getLast? = some ']')

/-- The section name inside a header line: `trimmed[1..len-1]`
(config.rs line 49). -/
def headerName (t : List Char) : List Char :=
  (t.drop 1).dropLast

/-- Embedding of the line loop of `parse_config` (config.rs lines 24-79).
State: `n` is the 1-based number of the current line, `result` the sections
finished so far in insertion order (the `HashMap` of the source, modelled
as an association list), `cur` the name of the open section (empty list =
no section open, the `String::new()` sentinel of the source) and `vec` the
items of the open section.  The branch structure mirrors the source line
by line, including the unreachable empty-item error (a trimmed-empty line
was already skipped by the blank-line check). -/
def parseGo : List (List Char) → Nat → List (List Char × List (List Char)) →
    List Char → List (List Char) →
    Except ParseError (List (List Char × List (List Char)))
  | [], _, result, cur, vec =>
    if cur = [] then .ok result else .ok (result ++ [(cur, vec)])
  | line :: rest, n, result, cur, vec =>
    let t := trimChars line
    if lineIsSkip t then parseGo rest (n + 1) result cur vec
    else if isHeaderLine t then
      let result' := if cur = [] then result else result ++ [(cur, vec)]
      if t.length < 3 then
        .error ⟨n, ("Invalid section header: too short").data⟩
      else
        let name := headerName t
        if (List.lookup name result').isSome then
          .error ⟨n, ("Duplicate section: ").data ++ name⟩
        else parseGo rest (n + 1) result' name []
    else if cur = [] then
      .error ⟨n, ("Item found before any section is defined").data⟩
    else if t = [] then
      .error ⟨n, ("Item cannot be empty").data⟩
    else parseGo rest (n + 1) result cur (vec ++ [t])

/-- Embedding of `parse_config` (config.rs lines 19-80), taking the input
already split into lines (Rust `content.lines()`). -/
def parse_config (lines : List (List Char)) :
    Except ParseError (List (List Char × List (List Char))) :=
  parseGo lines 1 [] [] []

/-- Modelled from the spec: the declarative description of the inputs on
which the configuration format is in error — scanning the lines in order
with the set of already-seen section names, the first line that is a
too-short (empty) section header, a duplicate section header, or an item
before any section is the offending line.  Returns its 1-based number. -/
def firstBadGo : List (List Char) → Nat → List (List Char) → Option Nat
  | [], _, _ => none
  | line :: rest, n, seen =>
    let t := trimChars line
    if lineIsSkip t then firstBadGo rest (n + 1) seen
    else if isHeaderLine t then
      if t.length < 3 then some n
      else if headerName t ∈ seen then some n
      else firstBadGo rest (n + 1) (headerName t :: seen)
    else if seen = [] then some n
    else firstBadGo rest (n + 1) seen

/-- Modelled from the spec: 1-based number of the first offending line of
the configuration input, if any. -/
def firstBadLine (lines : List (List Char)) : Option Nat :=
  firstBadGo lines 1 []

/-- Replacement-style insert for the results map of `check_patterns`: the
`HashMap::insert` of the source replaces the value at an existing key and
adds the pair otherwise. -/
def mapInsert : List (List Char × Bool) → List Char → Bool → List (List Char × Bool)
  | [], k, v => [(k, v)]
  | (k', v') :: rest, k, v =>
    if k' = k then (k', v) :: rest else (k', v') :: mapInsert rest k v

/-- One group step of the inner loop of `check_patterns` (main.rs lines
80-94): skip the group if it is already true, otherwise set it to true
when any of its patterns matches the file (the `break` after the insert is
the short-circuit of `List.any`). -/
def check_group_step (file : MatchPath) (results : List (List Char × Bool))
    (g : List Char × List (List Char)) : List (List Char × Bool) :=
  if (List.lookup g.1 results).getD false then results
  else if g.2.any (fun p => (MatchPath.new p).is_match file) then
    mapInsert results g.1 true
  else results

/-- Embedding of `check_patterns` (main.rs lines 67-98): initialize every
group to false, then for each changed file and each not-yet-matched group
set the group to true if any of its patterns matches the file.  The
`HashMap` of groups is modelled as an association list iterated in order. -/
def check_patterns (config : List (List Char × List (List Char)))
    (diff_files : List MatchPath) : List (List Char × Bool) :=
  let init := config.map (fun g => (g.1, false))
  diff_files.foldl
    (fun results file => config.foldl (check_group_step file) results)
    init

/-- The pattern of the memo-collision counterexample: the component `*ab`. -/
def cPattern : List Char := ['*', 'a', 'b']

/-- The text of the memo-collision counterexample: `a`, then ten thousand
`c` characters, then `ab`.  Its length 10003 makes the text index reach
10001, so the memo key of state (1, 10001) equals the key 20001 of state
(2, 1). -/
def cText : List Char := 'a' :: (List.replicate 10000 'c' ++ ['a', 'b'])

/-- The memo table after the star loop of the counterexample run has tried
the skip counts 0 to i-1: the poisoned entry for key 20001 (inserted while
exploring skip count 0) under the entries for keys 10000 to 10000+i-1. -/
def Mst : Nat → Memo
  | 0 => [(20001, false)]
  | i + 1 => (10000 + i, false) :: Mst i

/-- The continuation the star branch of `match_recursive_memo` passes to
`starLoopAux` in the counterexample run. -/
def cNext : Nat → Memo → Bool × Memo :=
  fun t m => match_recursive_memo 3 cPattern cText (0 + 1) t m

example : match_pattern_component ['a', '*', 'b', '*', 'c']
    ['a', '1', '2', '3', 'b', '4', '5', '6', 'c'] = true := by decide

example : match_pattern_component ['a', '*', 'b', '*', 'c']
    ['a', '1', 'b', '4', '5', '6', 'c', '7'] = false := by decide

example : match_pattern_component ['a', '?', 'b'] ['a', 'b'] = false := by decide

example : match_pattern_component ['*'] [] = true := by decide

example : globMatchSpec ['a', '*', 'b'] ['a', 'x', 'b'] = true := by
  simp [globMatchSpec]

example : matchNaive 4 ['*', 'a', 'b'] ['c', 'a', 'b'] 0 0 = true := by decide

example : (MatchPath.from_str "/ab/cd/ef.zig").is_match
    (MatchPath.from_str "ab/cd/ef.zig") = true := by decide

example : (MatchPath.from_str "/ab/cd/ef.zig").is_match
    (MatchPath.from_str "foo/bar/ab/cd/ef.ghi") = false := by decide

example : (MatchPath.from_str "ab/cd/ef.zig").is_match
    (MatchPath.from_str "foo/bar/ab/cd/ef.zig") = true := by decide

example : (MatchPath.from_str "**/ef.zig").is_match
    (MatchPath.from_str "ef.zig") = false := by decide

example : (MatchPath.from_str "ab/cd/**").is_match
    (MatchPath.from_str "ab/cd") = false := by decide

example : (MatchPath.from_str "ab/**/cd/ef.zig").is_match
    (MatchPath.from_str "ab/foo/bar/cd/ef.zig") = true := by decide

example : (MatchPath.from_str "ab/cd/**/e?f/gh.zig").is_match
    (MatchPath.from_str "ab/cd/foo/e3f/gh.zig") = true := by decide

example : (MatchPath.from_str "ab/cd/").is_match
    (MatchPath.from_str "ab/cd/xx/yy.c") = true := by decide

example : parse_config [("[compile]").data, ("src/**").data, [],
    ("[test]").data, ("tests/**").data] =
    .ok [(("compile").data, [("src/**").data]), (("test").data, [("tests/**").data])] := by
  rfl

example : parse_config [("[s]").data, ("i1").data, ("[s]").data] =
    .error ⟨3, ("Duplicate section: ").data ++ ("s").data⟩ := by rfl

example : parse_config [[], ("i1").data] =
    .error ⟨2, ("Item found before any section is defined").data⟩ := by rfl

example : parse_config [("[]").data] =
    .error ⟨1, ("Invalid section header: too short").data⟩ := by rfl

lemma ds_double_star : PathComponent.is_double_star ['*', '*'] = true := by decide

lemma ds_ab : PathComponent.is_double_star ['a', 'b'] = false := by decide

lemma ds_cd : PathComponent.is_double_star ['c', 'd'] = false := by decide

lemma mpc_ab_ab : match_pattern_component ['a', 'b'] ['a', 'b'] = true := by decide

lemma mpc_cd_cd : match_pattern_component ['c', 'd'] ['c', 'd'] = true := by decide

lemma lookup_cons_key {α β : Type} [BEq α] [LawfulBEq α] (k k' : α) (v : β)
    (rest : List (α × β)) (h : k = k') : List.lookup k ((k', v) :: rest) = some v := by
  rw [List.lookup_cons, beq_iff_eq.mpr h]

lemma lookup_cons_other {α β : Type} [BEq α] [LawfulBEq α] (k k' : α) (v : β)
    (rest : List (α × β)) (h : k ≠ k') : List.lookup k ((k', v) :: rest) = List.lookup k rest := by
  rw [List.lookup_cons, beq_eq_false_iff_ne.mpr h]

lemma lookup_mapInsert_self : ∀ (m : List (List Char × Bool)) (k : List Char) (v : Bool),
    List.lookup k (mapInsert m k v) = some v := by
  intro m k v
  induction m with
  | nil => exact lookup_cons_key k k v [] rfl
  | cons kv rest ih =>
    obtain ⟨k', v'⟩ := kv
    simp only [mapInsert]
    by_cases h : k' = k
    · rw [if_pos h, lookup_cons_key k k' v rest h.symm]
    · rw [if_neg h, lookup_cons_other k k' v' _ (Ne.symm h)]
      exact ih

lemma lookup_mapInsert_ne (m : List (List Char × Bool)) (k k₀ : List Char) (v : Bool)
    (h : k₀ ≠ k) : List.lookup k₀ (mapInsert m k v) = List.lookup k₀ m := by
  induction m with
  | nil => exact lookup_cons_other k₀ k v [] h
  | cons kv rest ih =>
    obtain ⟨k', v'⟩ := kv
    simp only [mapInsert]
    by_cases hk : k' = k
    · subst hk
      rw [if_pos rfl, lookup_cons_other k₀ k' v rest h, lookup_cons_other k₀ k' v' rest h]
    · rw [if_neg hk]
      by_cases h0 : k₀ = k'
      · rw [lookup_cons_key k₀ k' v' _ h0, lookup_cons_key k₀ k' v' _ h0]
      · rw [lookup_cons_other k₀ k' v' _ h0, lookup_cons_other k₀ k' v' _ h0]
        exact ih

lemma lookup_mapInsert_isSome (m : List (List Char × Bool)) (k k₀ : List Char) (v : Bool)
    (h : (List.lookup k₀ m).isSome) : (List.lookup k₀ (mapInsert m k v)).isSome := by
  by_cases hk : k₀ = k
  · subst hk
    rw [lookup_mapInsert_self]
    rfl
  · rw [lookup_mapInsert_ne m k k₀ v hk]
    exact h

lemma mapInsert_map_fst : ∀ (m : List (List Char × Bool)) (k : List Char) (v : Bool),
    (List.lookup k m).isSome → (mapInsert m k v).map Prod.fst = m.map Prod.fst := by
  intro m k v
  induction m with
  | nil => intro h; simp [List.lookup] at h
  | cons kv rest ih =>
    obtain ⟨k', v'⟩ := kv
    intro h
    simp only [mapInsert]
    by_cases hk : k' = k
    · rw [if_pos hk]
      rfl
    · rw [if_neg hk, List.map_cons, List.map_cons]
      refine congrArg (List.cons k') (ih ?_)
      rwa [lookup_cons_other k k' v' rest (Ne.symm hk)] at h

/-- The result of one group step at the key of that group. -/
lemma check_group_step_lookup_self (f : MatchPath) (R : List (List Char × Bool))
    (g : List Char × List (List Char)) (b : Bool) (h : List.lookup g.1 R = some b) :
    List.lookup g.1 (check_group_step f R g) =
      some (b || g.2.any (fun p => (MatchPath.new p).is_match f)) := by
  rw [check_group_step, h]
  cases b with
  | false =>
    rw [Option.getD_some, if_neg Bool.false_ne_true]
    by_cases hm : g.2.any (fun p => (MatchPath.new p).is_match f) = true
    · rw [if_pos hm, lookup_mapInsert_self, hm]
      rfl
    · rw [if_neg hm, h, Bool.not_eq_true] at *
      rw [hm]
      rfl
  | true =>
    rw [Option.getD_some, if_pos rfl, h]
    rfl

lemma check_group_step_lookup_ne (f : MatchPath) (R : List (List Char × Bool))
    (g : List Char × List (List Char)) (k : List Char) (h : k ≠ g.1) :
    List.lookup k (check_group_step f R g) = List.lookup k R := by
  rw [check_group_step]
  by_cases h1 : (List.lookup g.1 R).getD false
  · rw [if_pos h1]
  · rw [if_neg h1]
    by_cases h2 : g.2.any (fun p => (MatchPath.new p).is_match f)
    · rw [if_pos h2, lookup_mapInsert_ne _ _ _ _ h]
    · rw [if_neg h2]

lemma check_group_step_isSome (f : MatchPath) (R : List (List Char × Bool))
    (g : List Char × List (List Char)) (k : List Char)
    (h : (List.lookup k R).isSome) : (List.lookup k (check_group_step f R g)).isSome := by
  rw [check_group_step]
  by_cases h1 : (List.lookup g.1 R).getD false
  · rwa [if_pos h1]
  · rw [if_neg h1]
    by_cases h2 : g.2.any (fun p => (MatchPath.new p).is_match f)
    · rw [if_pos h2]
      exact lookup_mapInsert_isSome _ _ _ _ h
    · rwa [if_neg h2]

lemma check_group_step_map_fst (f : MatchPath) (R : List (List Char × Bool))
    (g : List Char × List (List Char)) (h : (List.lookup g.1 R).isSome) :
    (check_group_step f R g).map Prod.fst = R.map Prod.fst := by
  rw [check_group_step]
  by_cases h1 : (List.lookup g.1 R).getD false
  · rw [if_pos h1]
  · rw [if_neg h1]
    by_cases h2 : g.2.any (fun p => (MatchPath.new p).is_match f)
    · rw [if_pos h2]
      exact mapInsert_map_fst _ _ _ h
    · rw [if_neg h2]

lemma inner_fold_lookup_not_mem (f : MatchPath) :
    ∀ (l : List (List Char × List (List Char))) (R : List (List Char × Bool)) (k : List Char),
      k ∉ l.map Prod.fst →
      List.lookup k (l.foldl (check_group_step f) R) = List.lookup k R := by
  intro l
  induction l with
  | nil => intro R k _; rfl
  | cons g l' ih =>
    intro R k hk
    simp only [List.map_cons, List.mem_cons, not_or] at hk
    rw [List.foldl_cons, ih _ k hk.2, check_group_step_lookup_ne f R g k hk.1]

lemma inner_fold_isSome (f : MatchPath) :
    ∀ (l : List (List Char × List (List Char))) (R : List (List Char × Bool)) (k : List Char),
      (List.lookup k R).isSome →
      (List.lookup k (l.foldl (check_group_step f) R)).isSome := by
  intro l
  induction l with
  | nil => intro R k h; exact h
  | cons g l' ih =>
    intro R k h
    rw [List.foldl_cons]
    exact ih _ k (check_group_step_isSome f R g k h)

lemma inner_fold_map_fst (f : MatchPath) :
    ∀ (l : List (List Char × List (List Char))) (R : List (List Char × Bool)),
      (∀ g ∈ l, (List.lookup g.1 R).isSome) →
      (l.foldl (check_group_step f) R).map Prod.fst = R.map Prod.fst := by
  intro l
  induction l with
  | nil => intro R _; rfl
  | cons g l' ih =>
    intro R h
    rw [List.foldl_cons,
      ih _ (fun g' hg' => check_group_step_isSome f R g g'.1 (h g' (List.mem_cons_of_mem _ hg'))),
      check_group_step_map_fst f R g (h g (List.mem_cons_self _ _))]

lemma inner_fold_lookup_mem (f : MatchPath) :
    ∀ (l : List (List Char × List (List Char))) (R : List (List Char × Bool))
      (g : List Char × List (List Char)),
      (l.map Prod.fst).Nodup → (∀ g' ∈ l, (List.lookup g'.1 R).isSome) → g ∈ l →
      List.lookup g.1 (l.foldl (check_group_step f) R) =
        (List.lookup g.1 R).map
          (fun b => b || g.2.any (fun p => (MatchPath.new p).is_match f)) := by
  intro l
  induction l with
  | nil => intro R g _ _ h; simp at h
  | cons h0 l' ih =>
    intro R g hnd hsome hmem
    simp only [List.map_cons, List.nodup_cons] at hnd
    rw [List.foldl_cons]
    rcases List.mem_cons.mp hmem with rfl | hmem'
    · obtain ⟨b, hb⟩ := Option.isSome_iff_exists.mp (hsome g (List.mem_cons_self _ _))
      rw [inner_fold_lookup_not_mem f l' _ g.1 hnd.1,
        check_group_step_lookup_self f R g b hb, hb]
      rfl
    · have hne : g.1 ≠ h0.1 := by
        intro he
        exact hnd.1 (he ▸ List.mem_map_of_mem Prod.fst hmem')
      rw [ih _ g hnd.2
          (fun g' hg' => check_group_step_isSome f R h0 g'.1 (hsome g' (List.mem_cons_of_mem _ hg')))
          hmem',
        check_group_step_lookup_ne f R h0 g.1 hne]

lemma outer_fold_isSome (config : List (List Char × List (List Char))) :
    ∀ (files : List MatchPath) (R : List (List Char × Bool)) (k : List Char),
      (List.lookup k R).isSome →
      (List.lookup k
        (files.foldl (fun results file => config.foldl (check_group_step file) results) R)).isSome := by
  intro files
  induction files with
  | nil => intro R k h; exact h
  | cons f fs ih =>
    intro R k h
    rw [List.foldl_cons]
    exact ih _ k (inner_fold_isSome f config R k h)

lemma outer_fold_map_fst (config : List (List Char × List (List Char))) :
    ∀ (files : List MatchPath) (R : List (List Char × Bool)),
      (∀ g ∈ config, (List.lookup g.1 R).isSome) →
      (files.foldl (fun results file => config.foldl (check_group_step file) results) R).map
          Prod.fst = R.map Prod.fst := by
  intro files
  induction files with
  | nil => intro R _; rfl
  | cons f fs ih =>
    intro R h
    rw [List.foldl_cons,
      ih _ (fun g hg => inner_fold_isSome f config R g.1 (h g hg)),
      inner_fold_map_fst f config R h]

lemma outer_fold_lookup (config : List (List Char × List (List Char)))
    (hnd : (config.map Prod.fst).Nodup) :
    ∀ (files : List MatchPath) (R : List (List Char × Bool))
      (g : List Char × List (List Char)),
      g ∈ config → (∀ g' ∈ config, (List.lookup g'.1 R).isSome) →
      List.lookup g.1
          (files.foldl (fun results file => config.foldl (check_group_step file) results) R) =
        (List.lookup g.1 R).map
          (fun b => b || files.any (fun f => g.2.any (fun p => (MatchPath.new p).is_match f))) := by
  intro files
  induction files with
  | nil =>
    intro R g _ _
    simp only [List.foldl_nil, List.any_nil, Bool.or_false]
    cases List.lookup g.1 R <;> rfl
  | cons f fs ih =>
    intro R g hg hsome
    rw [List.foldl_cons,
      ih _ g hg (fun g' hg' => inner_fold_isSome f config R g'.1 (hsome g' hg')),
      inner_fold_lookup_mem f config R g hnd hsome hg,
      Option.map_map]
    cases List.lookup g.1 R with
    | none => rfl
    | some b =>
      simp only [Option.map_some', Function.comp]
      rw [List.any_cons, Bool.or_assoc]

lemma lookup_init_false : ∀ (l : List (List Char × List (List Char))) (k : List Char),
    k ∈ l.map Prod.fst →
    List.lookup k (l.map fun g => (g.1, false)) = some false := by
  intro l
  induction l with
  | nil => intro k h; simp at h
  | cons g l' ih =>
    intro k h
    by_cases hk : k = g.1
    · simp [List.lookup_cons, hk]
    · simp only [List.map_cons, List.mem_cons] at h
      rcases h with h | h
      · exact absurd h hk
      · rw [List.map_cons, List.lookup_cons]
        have : (k == g.1) = false := beq_eq_false_iff_ne.mpr hk
        rw [this]
        exact ih k h

/-- Claim C8: `check_patterns` produces exactly one boolean per configured
group, in the configuration order, and a group is true exactly when some
changed file matches some pattern of the group; the per-group
short-circuit does not change this, since the right-hand side below has no
short-circuit. -/
theorem c8_check_patterns (config : List (List Char × List (List Char)))
    (files : List MatchPath) (hnd : (config.map Prod.fst).Nodup) :
    ((check_patterns config files).map Prod.fst = config.map Prod.fst) ∧
    (∀ (name : List Char) (pats : List (List Char)), (name, pats) ∈ config →
      List.lookup name (check_patterns config files) =
        some (files.any (fun f => pats.any (fun p => (MatchPath.new p).is_match f)))) := by
  have hinit : ∀ g ∈ config,
      (List.lookup g.1 (config.map fun g => (g.1, false))).isSome := by
    intro g hg
    rw [lookup_init_false config g.1 (List.mem_map_of_mem Prod.fst hg)]
    rfl
  constructor
  · rw [check_patterns, outer_fold_map_fst config files _ hinit, List.map_map]
    rfl
  · intro name pats hmem
    rw [check_patterns,
      outer_fold_lookup config hnd files _ (name, pats) hmem hinit,
      lookup_init_false config name (List.mem_map_of_mem Prod.fst hmem)]
    simp

/-- Claim C8 witness: the characterization applied to a one-group
configuration and a one-file change list. -/
theorem c8_witness :
    List.lookup ['g'] (check_patterns [(['g'], [['*', '*']])] [MatchPath.new ['x']]) =
      some true := by
  have h := (c8_check_patterns [(['g'], [['*', '*']])] [MatchPath.new ['x']]
    (by decide)).2 ['g'] [['*', '*']] (by decide)
  rw [h]
  decide

lemma headerName_ne_nil (t : List Char) (h : 3 ≤ t.length) : headerName t ≠ [] := by
  have hlen : (headerName t).length = t.length - 1 - 1 := by
    rw [headerName, List.length_dropLast, List.length_drop]
  intro hnil
  rw [hnil] at hlen
  simp at hlen
  omega

lemma lookup_snoc_isSome {β : Type} (l : List (List Char × β)) (k c : List Char) (v : β) :
    (List.lookup k (l ++ [(c, v)])).isSome = true ↔
      (List.lookup k l).isSome = true ∨ k = c := by
  rw [List.lookup_append]
  cases h : List.lookup k l with
  | some b => simp [Option.or]
  | none =>
    by_cases hk : k = c
    · rw [lookup_cons_key k c v [] hk]
      simp [Option.or, hk]
    · rw [lookup_cons_other k c v [] hk]
      simp [Option.or, hk]

lemma lineIsSkip_false_ne_nil (t : List Char) (h : ¬lineIsSkip t = true) : t ≠ [] := by
  intro hnil
  exact h (by rw [hnil]; rfl)

lemma parseGo_step_skip (line : List Char) (rest : List (List Char)) (n : Nat)
    (result : List (List Char × List (List Char))) (cur : List Char) (vec : List (List Char))
    (h : lineIsSkip (trimChars line) = true) :
    parseGo (line :: rest) n result cur vec = parseGo rest (n + 1) result cur vec := by
  rw [parseGo, if_pos h]

lemma parseGo_step_short (line : List Char) (rest : List (List Char)) (n : Nat)
    (result : List (List Char × List (List Char))) (cur : List Char) (vec : List (List Char))
    (h1 : ¬lineIsSkip (trimChars line) = true) (h2 : isHeaderLine (trimChars line) = true)
    (h3 : (trimChars line).length < 3) :
    parseGo (line :: rest) n result cur vec =
      .error ⟨n, ("Invalid section header: too short").data⟩ := by
  simp [parseGo, h1, h2, h3]

lemma parseGo_step_dup (line : List Char) (rest : List (List Char)) (n : Nat)
    (result : List (List Char × List (List Char))) (cur : List Char) (vec : List (List Char))
    (h1 : ¬lineIsSkip (trimChars line) = true) (h2 : isHeaderLine (trimChars line) = true)
    (h3 : ¬(trimChars line).length < 3)
    (h4 : (List.lookup (headerName (trimChars line))
      (if cur = [] then result else result ++ [(cur, vec)])).isSome = true) :
    parseGo (line :: rest) n result cur vec =
      .error ⟨n, ("Duplicate section: ").data ++ headerName (trimChars line)⟩ := by
  simp [parseGo, h1, h2, h3, h4]

lemma parseGo_step_new (line : List Char) (rest : List (List Char)) (n : Nat)
    (result : List (List Char × List (List Char))) (cur : List Char) (vec : List (List Char))
    (h1 : ¬lineIsSkip (trimChars line) = true) (h2 : isHeaderLine (trimChars line) = true)
    (h3 : ¬(trimChars line).length < 3)
    (h4 : ¬(List.lookup (headerName (trimChars line))
      (if cur = [] then result else result ++ [(cur, vec)])).isSome = true) :
    parseGo (line :: rest) n result cur vec =
      parseGo rest (n + 1) (if cur = [] then result else result ++ [(cur, vec)])
        (headerName (trimChars line)) [] := by
  simp [parseGo, h1, h2, h3, h4]

lemma parseGo_step_before (line : List Char) (rest : List (List Char)) (n : Nat)
    (result : List (List Char × List (List Char))) (cur : List Char) (vec : List (List Char))
    (h1 : ¬lineIsSkip (trimChars line) = true) (h2 : ¬isHeaderLine (trimChars line) = true)
    (hc : cur = []) :
    parseGo (line :: rest) n result cur vec =
      .error ⟨n, ("Item found before any section is defined").data⟩ := by
  simp [parseGo, h1, h2, hc]

lemma parseGo_step_item (line : List Char) (rest : List (List Char)) (n : Nat)
    (result : List (List Char × List (List Char))) (cur : List Char) (vec : List (List Char))
    (h1 : ¬lineIsSkip (trimChars line) = true) (h2 : ¬isHeaderLine (trimChars line) = true)
    (hc : ¬cur = []) :
    parseGo (line :: rest) n result cur vec =
      parseGo rest (n + 1) result cur (vec ++ [trimChars line]) := by
  simp [parseGo, h1, h2, hc, lineIsSkip_false_ne_nil (trimChars line) h1]

/-- The parser errors exactly where the declarative scan finds the first
offending line, provided the parser state and the seen-set agree: the open
section is empty exactly when nothing was seen, and a name is a key of the
finished sections or the open section exactly when it was seen. -/
lemma parseGo_vs_firstBadGo :
    ∀ (lines : List (List Char)) (n : Nat) (result : List (List Char × List (List Char)))
      (cur : List Char) (vec : List (List Char)) (seen : List (List Char)),
      (cur = [] ↔ seen = []) →
      (∀ name : List Char,
        ((List.lookup name result).isSome = true ∨ (cur ≠ [] ∧ name = cur)) ↔ name ∈ seen) →
      (match firstBadGo lines n seen with
      | some m => ∃ e : ParseError, parseGo lines n result cur vec = .error e ∧ e.line = m
      | none => ∃ out, parseGo lines n result cur vec = .ok out) := by
  intro lines
  induction lines with
  | nil =>
    intro n result cur vec seen _ _
    simp only [firstBadGo]
    by_cases hc : cur = []
    · exact ⟨result, by rw [parseGo, if_pos hc]⟩
    · exact ⟨result ++ [(cur, vec)], by rw [parseGo, if_neg hc]⟩
  | cons line rest ih =>
    intro n result cur vec seen h1 h2
    by_cases hskip : lineIsSkip (trimChars line) = true
    · have hfb : firstBadGo (line :: rest) n seen = firstBadGo rest (n + 1) seen := by
        simp [firstBadGo, hskip]
      rw [hfb, parseGo_step_skip line rest n result cur vec hskip]
      exact ih (n + 1) result cur vec seen h1 h2
    · by_cases hhdr : isHeaderLine (trimChars line) = true
      · by_cases hshort : (trimChars line).length < 3
        · have hfb : firstBadGo (line :: rest) n seen = some n := by
            simp [firstBadGo, hskip, hhdr, hshort]
          rw [hfb, parseGo_step_short line rest n result cur vec hskip hhdr hshort]
          exact ⟨⟨n, ("Invalid section header: too short").data⟩, rfl, rfl⟩
        · have hiff : ∀ name : List Char,
              (List.lookup name
                (if cur = [] then result else result ++ [(cur, vec)])).isSome = true ↔
                name ∈ seen := by
            intro name
            by_cases hc : cur = []
            · rw [if_pos hc, ← h2 name]
              simp [hc]
            · rw [if_neg hc, lookup_snoc_isSome, ← h2 name]
              simp [hc]
          by_cases hdup : headerName (trimChars line) ∈ seen
          · have hfb : firstBadGo (line :: rest) n seen = some n := by
              simp [firstBadGo, hskip, hhdr, hshort, hdup]
            rw [hfb, parseGo_step_dup line rest n result cur vec hskip hhdr hshort
              ((hiff _).mpr hdup)]
            exact ⟨⟨n, ("Duplicate section: ").data ++ headerName (trimChars line)⟩, rfl, rfl⟩
          · have hfb : firstBadGo (line :: rest) n seen =
                firstBadGo rest (n + 1) (headerName (trimChars line) :: seen) := by
              simp [firstBadGo, hskip, hhdr, hshort, hdup]
            rw [hfb, parseGo_step_new line rest n result cur vec hskip hhdr hshort
              (by rw [hiff]; exact hdup)]
            refine ih (n + 1) _ (headerName (trimChars line)) []
              (headerName (trimChars line) :: seen) ?_ ?_
            · constructor
              · intro h
                exact absurd h (headerName_ne_nil _ (Nat.le_of_not_lt hshort))
              · intro h
                simp at h
            · intro name
              rw [List.mem_cons]
              constructor
              · rintro (hs | ⟨_, rfl⟩)
                · exact Or.inr ((hiff name).mp hs)
                · exact Or.inl rfl
              · rintro (rfl | hs)
                · exact Or.inr ⟨headerName_ne_nil _ (Nat.le_of_not_lt hshort), rfl⟩
                · exact Or.inl ((hiff name).mpr hs)
      · by_cases hseen : seen = []
        · have hc : cur = [] := h1.mpr hseen
          have hfb : firstBadGo (line :: rest) n seen = some n := by
            simp [firstBadGo, hskip, hhdr, hseen]
          rw [hfb, parseGo_step_before line rest n result cur vec hskip hhdr hc]
          exact ⟨⟨n, ("Item found before any section is defined").data⟩, rfl, rfl⟩
        · have hc : ¬cur = [] := fun h => hseen (h1.mp h)
          have hfb : firstBadGo (line :: rest) n seen = firstBadGo rest (n + 1) seen := by
            simp [firstBadGo, hskip, hhdr, hseen]
          rw [hfb, parseGo_step_item line rest n result cur vec hskip hhdr hc]
          exact ih (n + 1) result cur (vec ++ [trimChars line]) seen h1 h2

lemma cText_length : cText.length = 10003 := by
  rw [cText, List.length_cons, List.length_append, List.length_replicate]
  rfl

lemma getD_replicate_c : ∀ (n i : Nat), i < n → (List.replicate n 'c').getD i ' ' = 'c' := by
  intro n
  induction n with
  | zero => intro i h; omega
  | succ n ih =>
    intro i h
    cases i with
    | zero => rfl
    | succ i =>
      rw [List.replicate_succ, List.getD_cons_succ]
      exact ih i (by omega)

lemma cText_getD_mid (i : Nat) (h1 : 1 ≤ i) (h2 : i ≤ 10000) : cText.getD i ' ' = 'c' := by
  obtain ⟨j, rfl⟩ : ∃ j, i = j + 1 := ⟨i - 1, by omega⟩
  rw [cText, List.getD_cons_succ,
    List.getD_append _ _ _ _ (by rw [List.length_replicate]; omega)]
  exact getD_replicate_c 10000 j (by omega)

lemma cText_getD_10001 : cText.getD 10001 ' ' = 'a' := by
  rw [cText, show (10001 : Nat) = 10000 + 1 from rfl, List.getD_cons_succ,
    List.getD_append_right _ _ _ _ (by rw [List.length_replicate])]
  rw [List.length_replicate]
  rfl

lemma cText_getD_10002 : cText.getD 10002 ' ' = 'b' := by
  rw [cText, show (10002 : Nat) = 10001 + 1 from rfl, List.getD_cons_succ,
    List.getD_append_right _ _ _ _ (by rw [List.length_replicate]; omega)]
  rw [List.length_replicate]
  rfl

lemma Mst_lookup_none : ∀ (i k : Nat), (∀ j, j < i → k ≠ 10000 + j) → k ≠ 20001 →
    List.lookup k (Mst i) = none := by
  intro i
  induction i with
  | zero =>
    intro k _ h2
    rw [Mst, lookup_cons_other k 20001 false [] h2]
    rfl
  | succ i ih =>
    intro k h h2
    rw [Mst, lookup_cons_other k (10000 + i) false _ (h i (by omega))]
    exact ih k (fun j hj => h j (by omega)) h2

lemma Mst_lookup_20001 : ∀ i, i ≤ 10001 → List.lookup 20001 (Mst i) = some false := by
  intro i
  induction i with
  | zero => exact fun _ => lookup_cons_key 20001 20001 false [] rfl
  | succ i ih =>
    intro h
    rw [Mst, lookup_cons_other 20001 (10000 + i) false _ (by omega)]
    exact ih (by omega)

lemma mrm_hit (fuel : Nat) (pattern text : List Char) (pIdx tIdx : Nat) (memo : Memo)
    (r : Bool) (h : List.lookup (pIdx * 10000 + tIdx) memo = some r) :
    match_recursive_memo (fuel + 1) pattern text pIdx tIdx memo = (r, memo) := by
  simp only [match_recursive_memo, h]

lemma mrm_text_end (fuel : Nat) (pattern text : List Char) (pIdx tIdx : Nat) (memo : Memo)
    (h : List.lookup (pIdx * 10000 + tIdx) memo = none)
    (hp : ¬pIdx = pattern.length) (ht : tIdx = text.length) :
    match_recursive_memo (fuel + 1) pattern text pIdx tIdx memo =
      ((pattern.drop pIdx).all (fun c => c == '*'),
        (pIdx * 10000 + tIdx, (pattern.drop pIdx).all (fun c => c == '*')) :: memo) := by
  simp only [match_recursive_memo, h, if_neg hp, if_pos ht]

lemma mrm_literal_miss (fuel : Nat) (pattern text : List Char) (pIdx tIdx : Nat) (memo : Memo)
    (h : List.lookup (pIdx * 10000 + tIdx) memo = none)
    (hp : ¬pIdx = pattern.length) (ht : ¬tIdx = text.length)
    (hstar : ¬pattern.getD pIdx ' ' = '*') (hq : ¬pattern.getD pIdx ' ' = '?')
    (hc : ¬text.getD tIdx ' ' = pattern.getD pIdx ' ') :
    match_recursive_memo (fuel + 1) pattern text pIdx tIdx memo =
      (false, (pIdx * 10000 + tIdx, false) :: memo) := by
  simp only [match_recursive_memo, h, if_neg hp, if_neg ht, if_neg hstar, if_neg hq, if_neg hc]
  rfl

lemma mrm_literal_step (fuel : Nat) (pattern text : List Char) (pIdx tIdx : Nat) (memo : Memo)
    (h : List.lookup (pIdx * 10000 + tIdx) memo = none)
    (hp : ¬pIdx = pattern.length) (ht : ¬tIdx = text.length)
    (hstar : ¬pattern.getD pIdx ' ' = '*') (hq : ¬pattern.getD pIdx ' ' = '?')
    (hc : text.getD tIdx ' ' = pattern.getD pIdx ' ') :
    match_recursive_memo (fuel + 1) pattern text pIdx tIdx memo =
      memoInsertResult (pIdx * 10000 + tIdx)
        (match_recursive_memo fuel pattern text (pIdx + 1) (tIdx + 1) memo) := by
  simp only [match_recursive_memo, h, if_neg hp, if_neg ht, if_neg hstar, if_neg hq, if_pos hc]

lemma mrm_star (fuel : Nat) (pattern text : List Char) (pIdx tIdx : Nat) (memo : Memo)
    (h : List.lookup (pIdx * 10000 + tIdx) memo = none)
    (hp : ¬pIdx = pattern.length) (ht : ¬tIdx = text.length)
    (hstar : pattern.getD pIdx ' ' = '*') :
    match_recursive_memo (fuel + 1) pattern text pIdx tIdx memo =
      memoInsertResult (pIdx * 10000 + tIdx)
        (starLoopAux (fun t m => match_recursive_memo fuel pattern text (pIdx + 1) t m)
          tIdx 0 (text.length - tIdx + 1) memo) := by
  simp only [match_recursive_memo, h, if_neg hp, if_neg ht, if_pos hstar]

lemma starLoopAux_succ_false (next : Nat → Memo → Bool × Memo) (tIdx i steps : Nat)
    (memo m2 : Memo) (hr : next (tIdx + i) memo = (false, m2)) :
    starLoopAux next tIdx i (steps + 1) memo = starLoopAux next tIdx (i + 1) steps m2 := by
  simp only [starLoopAux, hr]
  rfl

lemma memoInsertResult_fst (key : Nat) (res : Bool × Memo) :
    (memoInsertResult key res).1 = res.1 := rfl

lemma cText_length_ne (i : Nat) (h : i ≤ 10002) : ¬i = cText.length := by
  rw [cText_length]
  omega

lemma mrm_2_1 (m : Memo) (h : List.lookup 20001 m = none) :
    match_recursive_memo 2 cPattern cText 2 1 m = (false, (20001, false) :: m) :=
  mrm_literal_miss 1 cPattern cText 2 1 m h (by decide) (cText_length_ne 1 (by omega))
    (by decide) (by decide)
    (by rw [cText_getD_mid 1 (by omega) (by omega)]; decide)

lemma mrm_1_mid (i : Nat) (h1 : 1 ≤ i) (h2 : i ≤ 10000) :
    match_recursive_memo 3 cPattern cText 1 i (Mst i) = (false, Mst (i + 1)) :=
  mrm_literal_miss 2 cPattern cText 1 i (Mst i)
    (Mst_lookup_none i (1 * 10000 + i) (fun j hj => by omega) (by omega))
    (by decide) (cText_length_ne i (by omega)) (by decide) (by decide)
    (by rw [cText_getD_mid i h1 h2]; decide)

lemma mrm_1_10001 (m : Memo) (h : List.lookup 20001 m = some false) :
    match_recursive_memo 3 cPattern cText 1 10001 m = (false, m) :=
  mrm_hit 2 cPattern cText 1 10001 m false h

lemma mrm_1_10002 (m : Memo) (h : List.lookup 20002 m = none) :
    match_recursive_memo 3 cPattern cText 1 10002 m = (false, (20002, false) :: m) :=
  mrm_literal_miss 2 cPattern cText 1 10002 m h (by decide)
    (cText_length_ne 10002 (by omega)) (by decide) (by decide)
    (by rw [cText_getD_10002]; decide)

lemma mrm_1_10003 (m : Memo) (h : List.lookup 20003 m = none) :
    match_recursive_memo 3 cPattern cText 1 10003 m = (false, (20003, false) :: m) :=
  mrm_text_end 2 cPattern cText 1 10003 m h (by decide) cText_length.symm

lemma mrm_1_0 : match_recursive_memo 3 cPattern cText 1 0 [] = (false, Mst 1) := by
  rw [mrm_literal_step 2 cPattern cText 1 0 [] rfl (by decide)
    (cText_length_ne 0 (by omega)) (by decide) (by decide) (by decide),
    mrm_2_1 [] rfl]
  rfl

lemma starLoop_tail (m : Memo) (h1 : List.lookup 20001 m = some false)
    (h2 : List.lookup 20002 m = none) (h3 : List.lookup 20003 m = none) :
    (starLoopAux cNext 0 10001 3 m).1 = false := by
  rw [starLoopAux_succ_false cNext 0 10001 2 m m (mrm_1_10001 m h1),
    starLoopAux_succ_false cNext 0 10002 1 m ((20002, false) :: m) (mrm_1_10002 m h2),
    starLoopAux_succ_false cNext 0 10003 0 ((20002, false) :: m)
      ((20003, false) :: (20002, false) :: m)
      (mrm_1_10003 _ (by rw [lookup_cons_other 20003 20002 false m (by omega)]; exact h3))]
  rfl

lemma starLoop_mid : ∀ (n i : Nat), i + n = 10004 → 1 ≤ i → i ≤ 10001 →
    (starLoopAux cNext 0 i n (Mst i)).1 = false := by
  intro n
  induction n with
  | zero => intro i h _ _; omega
  | succ n ih =>
    intro i h hi1 hi2
    by_cases hi : i = 10001
    · subst hi
      have hn : n = 2 := by omega
      subst hn
      exact starLoop_tail (Mst 10001) (Mst_lookup_20001 10001 (by omega))
        (Mst_lookup_none 10001 20002 (fun j hj => by omega) (by omega))
        (Mst_lookup_none 10001 20003 (fun j hj => by omega) (by omega))
    · rw [starLoopAux_succ_false cNext 0 i n (Mst i) (Mst (i + 1))
        (by rw [Nat.zero_add]; exact mrm_1_mid i hi1 (by omega))]
      exact ih (i + 1) (by omega) (by omega) (by omega)

/-- The memoized matcher returns false on the counterexample input: while
the star loop explores skip count 0, the literal mismatch at state (2, 1)
records false under key 20001; when the loop later reaches skip count
10001, the lookup for state (1, 10001) finds that entry (its key is also
20001) and wrongly reports a mismatch, so every skip count fails. -/
lemma mpc_cText_false : match_pattern_component cPattern cText = false := by
  rw [match_pattern_component]
  show (match_recursive_memo 4 cPattern cText 0 0 []).1 = false
  rw [
    mrm_star 3 cPattern cText 0 0 [] rfl (by decide) (cText_length_ne 0 (by omega)) rfl,
    show (fun t m => match_recursive_memo 3 cPattern cText (0 + 1) t m) = cNext from rfl,
    show cText.length - 0 + 1 = 10004 from by rw [cText_length]]
  have hstep : starLoopAux cNext 0 0 10004 [] = starLoopAux cNext 0 1 10003 (Mst 1) :=
    starLoopAux_succ_false cNext 0 0 10003 [] (Mst 1) mrm_1_0
  rw [hstep, memoInsertResult_fst]
  exact starLoop_mid 10003 1 (by omega) (by omega) (by omega)

lemma mn_end (fuel : Nat) (pattern text : List Char) (pIdx tIdx : Nat)
    (hp : pIdx = pattern.length) :
    matchNaive (fuel + 1) pattern text pIdx tIdx = decide (tIdx = text.length) := by
  simp only [matchNaive, if_pos hp]

lemma mn_star (fuel : Nat) (pattern text : List Char) (pIdx tIdx : Nat)
    (hp : ¬pIdx = pattern.length) (ht : ¬tIdx = text.length)
    (hstar : pattern.getD pIdx ' ' = '*') :
    matchNaive (fuel + 1) pattern text pIdx tIdx =
      (List.range (text.length - tIdx + 1)).any
        (fun i => matchNaive fuel pattern text (pIdx + 1) (tIdx + i)) := by
  simp only [matchNaive, if_neg hp, if_neg ht, if_pos hstar]

lemma mn_literal (fuel : Nat) (pattern text : List Char) (pIdx tIdx : Nat)
    (hp : ¬pIdx = pattern.length) (ht : ¬tIdx = text.length)
    (hstar : ¬pattern.getD pIdx ' ' = '*') (hq : ¬pattern.getD pIdx ' ' = '?') :
    matchNaive (fuel + 1) pattern text pIdx tIdx =
      (text.getD tIdx ' ' == pattern.getD pIdx ' ' &&
        matchNaive fuel pattern text (pIdx + 1) (tIdx + 1)) := by
  simp only [matchNaive, if_neg hp, if_neg ht, if_neg hstar, if_neg hq]

/-- The naive backtracking matcher accepts the counterexample input: the
star consumes the first 10001 characters and the literals `a`, `b` match
the final two. -/
lemma naive_cText_true : matchNaive 4 cPattern cText 0 0 = true := by
  rw [mn_star 3 cPattern cText 0 0 (by decide) (cText_length_ne 0 (by omega)) rfl,
    show cText.length - 0 + 1 = 10004 from by rw [cText_length]]
  refine List.any_eq_true.mpr ⟨10001, List.mem_range.mpr (by omega), ?_⟩
  show matchNaive 3 cPattern cText 1 10001 = true
  rw [mn_literal 2 cPattern cText 1 10001 (by decide) (cText_length_ne 10001 (by omega))
      (by decide) (by decide),
    cText_getD_10001,
    mn_literal 1 cPattern cText 2 10002 (by decide) (cText_length_ne 10002 (by omega))
      (by decide) (by decide),
    cText_getD_10002,
    mn_end 0 cPattern cText 3 10003 (by decide), cText_length]
  rfl

lemma glob_star_ab : ∀ (s : List Char), globMatchSpec ['*', 'a', 'b'] (s ++ ['a', 'b']) = true := by
  intro s
  induction s with
  | nil => simp [globMatchSpec]
  | cons c s ih =>
    rw [List.cons_append]
    simp [globMatchSpec, ih]

lemma glob_cText_true : globMatchSpec cPattern cText = true :=
  glob_star_ab ('a' :: List.replicate 10000 'c')

/-- Claim C1: on the pattern component `*ab` and the text made of `a`, ten
thousand `c` characters and `ab`, the memoized matcher returns false while
the naive section 4.3 backtracking matcher returns true — the composite
memo key p times 10000 plus t identifies the distinct states (2, 1) and
(1, 10001), whose shared entry poisons the search. -/
theorem c1_memo_collision_divergence :
    match_pattern_component cPattern cText = false ∧
    matchNaive (cPattern.length + 1) cPattern cText 0 0 = true :=
  ⟨mpc_cText_false, naive_cText_true⟩

/-- Claim C2: on the same counterexample input the memoized
`match_pattern_component` contradicts the character-level wildcard
semantics — a star should absorb the first 10001 characters and the
literals `a`, `b` should close the match, as the structural semantics
confirms. -/
theorem c2_component_semantics_divergence :
    match_pattern_component cPattern cText = false ∧
    globMatchSpec cPattern cText = true :=
  ⟨mpc_cText_false, glob_cText_true⟩

/-- Claim C9 (amended): parse errors arise exactly at the first duplicate
section header, item before any section, or empty section header, with the
1-based number of that line; an empty (all-whitespace) line in item
position is skipped, so the empty-item error of the source is unreachable
and such inputs parse successfully. -/
theorem c9_parse_error_iff (lines : List (List Char)) :
    match firstBadLine lines with
    | some m => ∃ e : ParseError, parse_config lines = .error e ∧ e.line = m
    | none => ∃ out, parse_config lines = .ok out :=
  parseGo_vs_firstBadGo lines 1 [] [] [] [] (by simp) (by simp)

/-- Claim C9 counterexample: an input whose second line is an empty item
line (whitespace only, in item position inside a section) parses
successfully instead of producing the claimed empty-item error. -/
theorem c9_counterexample :
    parse_config [("[a]").data, (" ").data, ("x").data] =
      .ok [(("a").data, [("x").data])] := by rfl

/-- Claim C10: the single-component pattern string consisting of the
recursive wildcard marker matches a candidate exactly when the candidate
has at least one component; in particular it does not match the empty
path, the terminal double-star succeeding only once a candidate component
remains in the walk. -/
theorem c10_double_star_vs_empty_path (c : MatchPath) :
    (MatchPath.new ['*', '*']).is_match c = !(c.components.isEmpty) := by
  have hpat : MatchPath.new ['*', '*'] = ⟨[['*', '*']], false, false⟩ := by decide
  rw [hpat]
  cases hc : c.components with
  | nil => simp [MatchPath.is_match, is_match_loop, hc]
  | cons t ts => simp [MatchPath.is_match, is_match_loop, hc, ds_double_star]

/-- Claim C5: a double-star in the last pattern position succeeds
immediately once the walk reaches it with a candidate component remaining,
and the pattern `ab/cd/**` matches `ab/cd/e` and `ab/cd/e/f` but matches
neither `ab/cd` itself, nor `ab`, nor `ab/cx`. -/
theorem c5_trailing_double_star :
    (∀ (isDir : Bool) (t : PathComponent) (ts : List PathComponent) (flag : Bool),
      is_match_loop isDir [['*', '*']] (t :: ts) flag = true) ∧
    (MatchPath.from_str "ab/cd/**").is_match (MatchPath.from_str "ab/cd/e") = true ∧
    (MatchPath.from_str "ab/cd/**").is_match (MatchPath.from_str "ab/cd/e/f") = true ∧
    (MatchPath.from_str "ab/cd/**").is_match (MatchPath.from_str "ab/cd") = false ∧
    (MatchPath.from_str "ab/cd/**").is_match (MatchPath.from_str "ab") = false ∧
    (MatchPath.from_str "ab/cd/**").is_match (MatchPath.from_str "ab/cx") = false := by
  refine ⟨?_, by decide, by decide, by decide, by decide, by decide⟩
  intro isDir t ts flag
  simp [is_match_loop, ds_double_star]

/-- Claim C4: a double-star pattern component that is not the last pattern
component consumes exactly one candidate component and turns recursive
mode on for the rest of the walk; the pattern ab, doublestar, cd matches
`ab/x/cd` and `ab/x/y/cd` but not `ab/cd`, and the pattern doublestar, ef
matches `x/ef` and `x/y/ef` but neither `ef2` nor the bare `ef`. -/
theorem c4_middle_double_star :
    (∀ (isDir : Bool) (ps : List PathComponent) (t : PathComponent)
        (ts : List PathComponent) (flag : Bool), ps ≠ [] →
      is_match_loop isDir (['*', '*'] :: ps) (t :: ts) flag =
        is_match_loop isDir ps ts true) ∧
    (MatchPath.from_str "ab/**/cd").is_match (MatchPath.from_str "ab/x/cd") = true ∧
    (MatchPath.from_str "ab/**/cd").is_match (MatchPath.from_str "ab/x/y/cd") = true ∧
    (MatchPath.from_str "ab/**/cd").is_match (MatchPath.from_str "ab/cd") = false ∧
    (MatchPath.from_str "**/ef").is_match (MatchPath.from_str "x/ef") = true ∧
    (MatchPath.from_str "**/ef").is_match (MatchPath.from_str "x/y/ef") = true ∧
    (MatchPath.from_str "**/ef").is_match (MatchPath.from_str "ef2") = false ∧
    (MatchPath.from_str "**/ef").is_match (MatchPath.from_str "ef") = false := by
  refine ⟨?_, by decide, by decide, by decide, by decide, by decide, by decide, by decide⟩
  intro isDir ps t ts flag hps
  simp [is_match_loop, ds_double_star, hps]

/-- Claim C4 witness: the double-star step equation applied at a concrete
pattern remainder, candidate component and flag. -/
theorem c4_witness :
    is_match_loop false [['*', '*'], ['c', 'd']] [['x'], ['c', 'd']] false =
      is_match_loop false [['c', 'd']] [['c', 'd']] true :=
  c4_middle_double_star.1 false [['c', 'd']] ['x'] [['c', 'd']] false (by decide)

lemma splitGo_ne_nil : ∀ (rest cur : List Char), cur ≠ [] → splitGo rest cur ≠ [] := by
  intro rest
  induction rest with
  | nil => intro cur hcur; simp [splitGo, hcur]
  | cons ch rest ih =>
    intro cur hcur
    by_cases hch : ch = '/'
    · subst hch
      simp only [splitGo, if_pos rfl, if_neg hcur]
      simp
    · simp only [splitGo, if_neg hch]
      exact ih (ch :: cur) (by simp)

lemma new_components (c : List Char) :
    (MatchPath.new c).components = split_path_components c := by
  by_cases hc : c = [] <;> simp [MatchPath.new, hc, split_path_components, splitGo]

lemma split_dsp (p : List Char) :
    split_path_components (['*', '*', '/'] ++ p) = ['*', '*'] :: split_path_components p := rfl

lemma split_xp (c : List Char) :
    split_path_components ('x' :: '/' :: c) = ['x'] :: split_path_components c := rfl

lemma is_match_eq_loop (P T : MatchPath) (h : P.components ≠ []) :
    P.is_match T = is_match_loop P.is_directory P.components T.components (!P.is_absolute) := by
  simp [MatchPath.is_match, h]

/-- Claim C3 counterexample: the relative pattern `ab` matches the
candidate `ab`, but the pattern obtained by prefixing the recursive
wildcard marker does not, so a relative pattern does not behave as though
prefixed with the marker against the same candidate. -/
theorem c3_counterexample :
    (MatchPath.from_str "ab").is_match (MatchPath.from_str "ab") = true ∧
    (MatchPath.from_str "**/ab").is_match (MatchPath.from_str "ab") = false := by
  exact ⟨by decide, by decide⟩

/-- Claim C3 (amended): the walk starts in recursive mode exactly when the
pattern is not absolute; a non-absolute pattern behaves like the same
pattern prefixed with the recursive wildcard marker against a candidate
with one extra leading component (the non-terminal marker consumes exactly
one candidate component); and the absolute and relative examples of the
claim hold. -/
theorem c3_relative_prefix_shift :
    (∀ P T : MatchPath, P.components ≠ [] →
      P.is_match T = is_match_loop P.is_directory P.components T.components (!P.is_absolute)) ∧
    (∀ (p c : List Char), p ≠ [] → p.head? ≠ some '/' →
      (MatchPath.new p).is_match (MatchPath.new c) =
        (MatchPath.new (['*', '*', '/'] ++ p)).is_match (MatchPath.new ('x' :: '/' :: c))) ∧
    (MatchPath.from_str "/ab/cd/ef").is_match (MatchPath.from_str "ab/cd/ef") = true ∧
    (MatchPath.from_str "/ab/cd/ef").is_match (MatchPath.from_str "x/ab/cd/ef") = false ∧
    (MatchPath.from_str "ab/cd").is_match (MatchPath.from_str "ab/cd") = true ∧
    (MatchPath.from_str "ab/cd").is_match (MatchPath.from_str "x/y/ab/cd") = true := by
  refine ⟨is_match_eq_loop, ?_, by decide, by decide, by decide, by decide⟩
  intro p c hne hab
  obtain ⟨ph, pt, rfl⟩ := List.exists_cons_of_ne_nil hne
  have hph : ph ≠ '/' := by simpa using hab
  have hcomps : split_path_components (ph :: pt) ≠ [] := by
    simpa [split_path_components, splitGo, hph] using splitGo_ne_nil pt [ph] (by simp)
  have hlast : (('*' :: '*' :: '/' :: ph :: pt) : List Char).getLast? = (ph :: pt).getLast? := by
    show ((['*', '*', '/'] ++ (ph :: pt)) : List Char).getLast? = (ph :: pt).getLast?
    obtain ⟨v, hv⟩ := Option.isSome_iff_exists.mp (List.getLast?_isSome.mpr hne)
    rw [List.getLast?_append, hv]
    rfl
  have h1 : MatchPath.new (ph :: pt) =
      ⟨split_path_components (ph :: pt), false, decide ((ph :: pt).getLast? = some '/')⟩ := by
    simp [MatchPath.new, hph]
  have h2 : MatchPath.new (['*', '*', '/'] ++ (ph :: pt)) =
      ⟨['*', '*'] :: split_path_components (ph :: pt), false,
        decide ((ph :: pt).getLast? = some '/')⟩ := by
    show MatchPath.new ('*' :: '*' :: '/' :: ph :: pt) = _
    simp only [MatchPath.new]
    rw [if_neg (by simp : ¬(('*' :: '*' :: '/' :: ph :: pt) : List Char) = [])]
    rw [hlast]
    rfl
  rw [h1, h2,
    is_match_eq_loop _ _ (by simpa using hcomps),
    is_match_eq_loop _ _ (by simp)]
  simp only [new_components, split_xp]
  simp [is_match_loop, ds_double_star, hcomps]

/-- Claim C3 witness: the shifted equivalence applied at the relative
pattern `ab` and the candidate `ab`. -/
theorem c3_witness :
    (MatchPath.new ['a', 'b']).is_match (MatchPath.new ['a', 'b']) =
      (MatchPath.new (['*', '*', '/'] ++ ['a', 'b'])).is_match
        (MatchPath.new ('x' :: '/' :: ['a', 'b'])) :=
  c3_relative_prefix_shift.2.1 ['a', 'b'] ['a', 'b'] (by decide) (by decide)

lemma splitGo_mem : ∀ (path cur : List Char), '/' ∉ cur →
    ∀ comp ∈ splitGo path cur, comp ≠ [] ∧ '/' ∉ comp := by
  intro path
  induction path with
  | nil =>
    intro cur hcur comp hmem
    by_cases hc : cur = []
    · simp [splitGo, hc] at hmem
    · simp [splitGo, hc] at hmem
      subst hmem
      exact ⟨by simpa using hc, by simpa using hcur⟩
  | cons ch rest ih =>
    intro cur hcur comp hmem
    by_cases hch : ch = '/'
    · subst hch
      by_cases hc : cur = []
      · rw [splitGo, if_pos rfl, if_pos hc] at hmem
        exact ih [] (by simp) comp hmem
      · rw [splitGo, if_pos rfl, if_neg hc] at hmem
        rcases List.mem_cons.mp hmem with h | h
        · subst h
          exact ⟨by simpa using hc, by simpa using hcur⟩
        · exact ih [] (by simp) comp h
    · rw [splitGo, if_neg hch] at hmem
      refine ih (ch :: cur) ?_ comp hmem
      simp only [List.mem_cons, not_or]
      exact ⟨fun h => hch h.symm, hcur⟩

/-- Claim C7: path construction is total and pure, the empty string gives
an empty component list with both flags false, the absolute flag holds
exactly when the string starts with the separator, the directory flag
exactly when it ends with it, and no produced component is empty or
contains the separator. -/
theorem c7_path_construction :
    (MatchPath.new [] = ⟨[], false, false⟩) ∧
    (∀ s : List Char, (MatchPath.new s).is_absolute = true ↔ s.head? = some '/') ∧
    (∀ s : List Char, (MatchPath.new s).is_directory = true ↔ s.getLast? = some '/') ∧
    (∀ s : List Char, ∀ comp ∈ (MatchPath.new s).components, comp ≠ [] ∧ '/' ∉ comp) := by
  refine ⟨rfl, ?_, ?_, ?_⟩
  · intro s
    by_cases hs : s = [] <;> simp [MatchPath.new, hs]
  · intro s
    by_cases hs : s = [] <;> simp [MatchPath.new, hs]
  · intro s comp hmem
    by_cases hs : s = []
    · simp [MatchPath.new, hs] at hmem
    · simp only [MatchPath.new, if_neg hs] at hmem
      exact splitGo_mem s [] (by simp) comp hmem

/-- Claim C7 witness: the component invariant applied to the concrete
string `a/b` and its first component. -/
theorem c7_witness : (['a'] : List Char) ≠ [] ∧ '/' ∉ (['a'] : List Char) :=
  c7_path_construction.2.2.2 ['a', '/', 'b'] ['a'] (by decide)

/-- Claim C6: once all components of a directory-suffixed pattern are
consumed the walk succeeds whatever candidate components remain, and the
pattern `ab/cd/` matches every candidate whose components begin with `ab`
then `cd`, whatever follows. -/
theorem c6_directory_suffix :
    (∀ (ts : List PathComponent) (flag : Bool), is_match_loop true [] ts flag = true) ∧
    (∀ (rest : List PathComponent) (aFlag dFlag : Bool),
      (MatchPath.from_str "ab/cd/").is_match
        ⟨['a', 'b'] :: ['c', 'd'] :: rest, aFlag, dFlag⟩ = true) := by
  constructor
  · intro ts flag
    simp [is_match_loop]
  · intro rest aFlag dFlag
    have hpat : MatchPath.from_str "ab/cd/" = ⟨[['a', 'b'], ['c', 'd']], false, true⟩ := by
      decide
    rw [hpat]
    simp [MatchPath.is_match, is_match_loop, ds_ab, ds_cd, mpc_ab_ab, mpc_cd_cd]
